import Mathlib

/-!
Shallow embedding of the trucastel-api match engine.

The primary embedded code is the in-memory service variant in
src/api/index.ts: the data model, the turn sequencer `getNextPlayer`, the
round resolver `determineRoundWinner`, the series resolver
`determineGameWinner`, and the submitPlay route handler, modelled as a
pure state transition over a single match and over the global `matches`
map.

The Convex-backed variant (the plays.create mutation of
src/unnamed/part_001 together with its route in src/unnamed/part_002) is
embedded separately further below. Its turn and round logic agree with
the in-memory variant, but its series logic differs observably: the
completion check compares the round winners read from the match document
before the patch of the closing round, so the winner field of the round
being closed is still unset when the check runs.
-/

namespace Trucastel

/-- Card suit, from CardSchema's four-element z.enum. -/
inductive Suit
  | hearts
  | diamonds
  | clubs
  | spades
deriving DecidableEq, Repr

/-- A card. The value is a JS number; the play route obtains it via
parseInt, so it is modelled as an Int (NaN parses fail zod's min check and
are covered by the rejected branch of card validation). -/
structure Card where
  value : Int
  suit : Suit
deriving DecidableEq, Repr

/-- One recorded play (PlaySchema). -/
structure Play where
  id : String
  userId : String
  timestamp : Int
  card : Card
deriving DecidableEq, Repr

/-- A team of two player identities (TeamSchema). -/
structure Team where
  player1 : String
  player2 : String
deriving DecidableEq, Repr

/-- The RoundKey union type "round1" | "round2" | "round3". -/
inductive RoundKey
  | round1
  | round2
  | round3
deriving DecidableEq, Repr

/-- The "team1" | "team2" union used for round and game winners. -/
inductive TeamId
  | team1
  | team2
deriving DecidableEq, Repr

/-- The roundWinners record: one optional team per round key. In the
source it starts as the empty object, i.e. all three entries undefined. -/
structure RoundWinners where
  round1 : Option TeamId
  round2 : Option TeamId
  round3 : Option TeamId
deriving DecidableEq, Repr

/-- Read the roundWinners entry for a round key. -/
def RoundWinners.get (w : RoundWinners) : RoundKey → Option TeamId
  | RoundKey.round1 => w.round1
  | RoundKey.round2 => w.round2
  | RoundKey.round3 => w.round3

/-- Write the roundWinners entry for a round key
(the assignment state.roundWinners[round] = winner). -/
def RoundWinners.set (w : RoundWinners) (k : RoundKey) (v : Option TeamId) : RoundWinners :=
  match k with
  | RoundKey.round1 => { w with round1 := v }
  | RoundKey.round2 => { w with round2 := v }
  | RoundKey.round3 => { w with round3 := v }

/-- The GameState record of src/api/index.ts. `winner` and `gameComplete`
are optional in the source and undefined until set; undefined is modelled
as none / false, matching how the code branches on their truthiness. -/
structure GameState where
  team1 : Team
  team2 : Team
  currentTurn : String
  currentRound : RoundKey
  roundWinners : RoundWinners
  winner : Option TeamId
  gameComplete : Bool
deriving DecidableEq, Repr

/-- The per-round play lists (the rounds record of a Match). -/
structure Rounds where
  round1 : List Play
  round2 : List Play
  round3 : List Play
deriving DecidableEq, Repr

/-- Read the play list of a round key. -/
def Rounds.get (r : Rounds) : RoundKey → List Play
  | RoundKey.round1 => r.round1
  | RoundKey.round2 => r.round2
  | RoundKey.round3 => r.round3

/-- Replace the play list of a round key (the in-place push on
rounds[state.currentRound], made explicit). -/
def Rounds.set (r : Rounds) (k : RoundKey) (ps : List Play) : Rounds :=
  match k with
  | RoundKey.round1 => { r with round1 := ps }
  | RoundKey.round2 => { r with round2 := ps }
  | RoundKey.round3 => { r with round3 := ps }

/-- A match: game state plus the plays grouped by round. -/
structure Match where
  state : GameState
  rounds : Rounds
deriving DecidableEq, Repr

/-- getNextPlayer of src/api/index.ts: the fixed positional turn ring. -/
def getNextPlayer (state : GameState) (currentPlayer : String) : String :=
  if currentPlayer = state.team1.player1 ∨ currentPlayer = state.team1.player2 then
    if currentPlayer = state.team1.player1 then state.team2.player1 else state.team2.player2
  else
    if currentPlayer = state.team2.player1 then state.team1.player2 else state.team1.player1

/-- The callback of plays.reduce in determineRoundWinner: keep the play
with the strictly greater card value, the accumulator on a tie. -/
def pickHigher (highest current : Play) : Play :=
  if current.card.value > highest.card.value then current else highest

/-- determineRoundWinner of src/api/index.ts. JS reduce with no initial
value seeds the accumulator with the first element and throws on an empty
array; the empty case is therefore modelled as none. -/
def determineRoundWinner (plays : List Play) (state : GameState) : Option TeamId :=
  match plays with
  | [] => none
  | first :: rest =>
    let winningPlay := rest.foldl pickHigher first
    if winningPlay.userId = state.team1.player1 ∨ winningPlay.userId = state.team1.player2 then
      some TeamId.team1
    else
      some TeamId.team2

/-- The forEach body of determineGameWinner: bump the (team1Wins,
team2Wins) tally for a round holding exactly 4 plays. The none branch is
unreachable because a 4-play list is nonempty. -/
def tallyRound (state : GameState) (acc : Nat × Nat) (roundPlays : List Play) : Nat × Nat :=
  if roundPlays.length = 4 then
    match determineRoundWinner roundPlays state with
    | some TeamId.team1 => (acc.1 + 1, acc.2)
    | some TeamId.team2 => (acc.1, acc.2 + 1)
    | none => acc
  else
    acc

/-- determineGameWinner of src/api/index.ts: recount round wins from the
raw per-round play lists (Object.values iterates round1, round2, round3)
and declare a winner at 2 wins, team1 checked first. -/
def determineGameWinner (rounds : Rounds) (state : GameState) : Option TeamId :=
  let counts := [rounds.round1, rounds.round2, rounds.round3].foldl (tallyRound state) (0, 0)
  if 2 ≤ counts.1 then some TeamId.team1
  else if 2 ≤ counts.2 then some TeamId.team2
  else none

/-- The round advancement in the submitPlay handler: round1 to round2,
round2 to round3, round3 unchanged. -/
def advanceRound : RoundKey → RoundKey
  | RoundKey.round1 => RoundKey.round2
  | RoundKey.round2 => RoundKey.round3
  | RoundKey.round3 => RoundKey.round3

/-- CardSchema's suit branch: the suit route parameter is an arbitrary
string, accepted only when it is one of the four enum members. -/
def parseSuit (s : String) : Option Suit :=
  if s = "hearts" then some Suit.hearts
  else if s = "diamonds" then some Suit.diamonds
  else if s = "clubs" then some Suit.clubs
  else if s = "spades" then some Suit.spades
  else none

/-- CardSchema.parse on the route's raw (value, suit) pair: value must be
in 1..13 and the suit string in the enumeration; none models z.ZodError. -/
def parseCard (value : Int) (suit : String) : Option Card :=
  if 1 ≤ value ∧ value ≤ 13 then
    (parseSuit suit).map (fun st => { value := value, suit := st })
  else
    none

/-- The error outcomes of the submitPlay route: 404 match not found,
400 zod validation error, 400 not your turn. -/
inductive SubmitError
  | notFound
  | validationError
  | turnError
deriving DecidableEq, Repr

/-- The mutation section of the submitPlay handler (src/api/index.ts lines
292-323), entered once all preconditions passed: push the play onto the
current round, advance the turn unconditionally, and if the round now
holds 4 plays resolve it, advance the round and re-evaluate the game
winner. determineRoundWinner is called here on a nonempty list, so
writing its optional result into roundWinners always writes a some. -/
def applyPlay (m : Match) (userId : String) (card : Card) (playId : String) (now : Int) : Match :=
  let play : Play := { id := playId, userId := userId, timestamp := now, card := card }
  let cur := m.state.currentRound
  let currentRoundPlays := m.rounds.get cur ++ [play]
  let rounds1 := m.rounds.set cur currentRoundPlays
  let state1 := { m.state with currentTurn := getNextPlayer m.state userId }
  if currentRoundPlays.length = 4 then
    let roundWinner := determineRoundWinner currentRoundPlays state1
    let state2 := { state1 with
      roundWinners := state1.roundWinners.set cur roundWinner
      currentRound := advanceRound cur }
    match determineGameWinner rounds1 state2 with
    | some gw => { state := { state2 with winner := some gw, gameComplete := true }, rounds := rounds1 }
    | none => { state := state2, rounds := rounds1 }
  else
    { state := state1, rounds := rounds1 }

/-- The submitPlay route handler for one existing match, precondition
order as in the source: card validation (CardSchema.parse), then the turn
check, then the mutation section. The handler never consults
gameComplete. -/
def submitPlay (m : Match) (userId : String) (cardValue : Int) (cardSuit : String)
    (playId : String) (now : Int) : Except SubmitError Match :=
  match parseCard cardValue cardSuit with
  | none => Except.error SubmitError.validationError
  | some card =>
    if m.state.currentTurn = userId then
      Except.ok (applyPlay m userId card playId now)
    else
      Except.error SubmitError.turnError

/-- The full route, over the global matches map: unknown matchId is a 404
before anything else; on success the map is updated at that id, on any
error it is returned untouched. -/
def submitPlayRoute (matchesMap : String → Option Match) (matchId userId : String)
    (cardValue : Int) (cardSuit : String) (playId : String) (now : Int) :
    (String → Option Match) × Except SubmitError Match :=
  match matchesMap matchId with
  | none => (matchesMap, Except.error SubmitError.notFound)
  | some m =>
    match submitPlay m userId cardValue cardSuit playId now with
    | Except.error e => (matchesMap, Except.error e)
    | Except.ok m' => (fun k => if k = matchId then some m' else matchesMap k, Except.ok m')

/-- The match/create handler's initial state: empty rounds, empty
roundWinners, currentTurn = team1.player1, currentRound = round1, winner
and gameComplete undefined. -/
def createMatch (t1 t2 : Team) : Match :=
  { state := { team1 := t1, team2 := t2, currentTurn := t1.player1,
               currentRound := RoundKey.round1,
               roundWinners := { round1 := none, round2 := none, round3 := none },
               winner := none, gameComplete := false },
    rounds := { round1 := [], round2 := [], round3 := [] } }

/-- A raw submission as received by the play route. -/
structure Submission where
  userId : String
  cardValue : Int
  cardSuit : String
  playId : String
  now : Int
deriving DecidableEq, Repr

/-- Apply one submission, keeping the previous state on rejection (the
route returns an error response and the stored match is untouched). -/
def stepOk (m : Match) (r : Submission) : Match :=
  match submitPlay m r.userId r.cardValue r.cardSuit r.playId r.now with
  | Except.ok m' => m'
  | Except.error _ => m

/-- Apply a list of submissions, stopping at the first rejection. -/
def runPlaysE (m : Match) : List Submission → Except SubmitError Match
  | [] => Except.ok m
  | r :: rest =>
    match submitPlay m r.userId r.cardValue r.cardSuit r.playId r.now with
    | Except.ok m' => runPlaysE m' rest
    | Except.error e => Except.error e

/-- Concrete test match: team1 = {A, B}, team2 = {C, D}. -/
def mB0 : Match := createMatch { player1 := "A", player2 := "B" } { player1 := "C", player2 := "D" }

/-- A 13-submission script following the fixed turn ring A, C, B, D.
Team1 (via A's 12s) wins round1 and round2, so the match completes at the
8th play; the script then keeps playing into round3. -/
def reqsB : List Submission :=
  [ { userId := "A", cardValue := 12, cardSuit := "spades", playId := "p1", now := 1 },
    { userId := "C", cardValue := 3, cardSuit := "hearts", playId := "p2", now := 2 },
    { userId := "B", cardValue := 7, cardSuit := "diamonds", playId := "p3", now := 3 },
    { userId := "D", cardValue := 2, cardSuit := "clubs", playId := "p4", now := 4 },
    { userId := "A", cardValue := 12, cardSuit := "hearts", playId := "p5", now := 5 },
    { userId := "C", cardValue := 3, cardSuit := "spades", playId := "p6", now := 6 },
    { userId := "B", cardValue := 7, cardSuit := "clubs", playId := "p7", now := 7 },
    { userId := "D", cardValue := 2, cardSuit := "diamonds", playId := "p8", now := 8 },
    { userId := "A", cardValue := 5, cardSuit := "hearts", playId := "p9", now := 9 },
    { userId := "C", cardValue := 4, cardSuit := "hearts", playId := "p10", now := 10 },
    { userId := "B", cardValue := 3, cardSuit := "hearts", playId := "p11", now := 11 },
    { userId := "D", cardValue := 9, cardSuit := "hearts", playId := "p12", now := 12 },
    { userId := "A", cardValue := 2, cardSuit := "hearts", playId := "p13", now := 13 } ]

/-- The match state after the first n submissions of the script. -/
def runB (n : Nat) : Match := (reqsB.take n).foldl stepOk mB0

/-! ### Helper lemmas about the embedded definitions -/

@[simp]
lemma rounds_get_set (r : Rounds) (k k' : RoundKey) (ps : List Play) :
    (r.set k ps).get k' = if k' = k then ps else r.get k' := by
  cases k <;> cases k' <;> simp [Rounds.get, Rounds.set]

@[simp]
lemma roundWinners_get_set (w : RoundWinners) (k k' : RoundKey) (v : Option TeamId) :
    (w.set k v).get k' = if k' = k then v else w.get k' := by
  cases k <;> cases k' <;> simp [RoundWinners.get, RoundWinners.set]

/-- Inversion of an accepted submission: the card parsed, it was the
submitter's turn, and the result is the mutation section's output. -/
lemma submitPlay_ok_elim {m : Match} {u : String} {v : Int} {s pid : String} {ts : Int}
    {m' : Match} (h : submitPlay m u v s pid ts = Except.ok m') :
    ∃ card, parseCard v s = some card ∧ m.state.currentTurn = u ∧
      m' = applyPlay m u card pid ts := by
  unfold submitPlay at h
  cases hp : parseCard v s with
  | none => rw [hp] at h; exact absurd h (by simp)
  | some card =>
    rw [hp] at h
    by_cases ht : m.state.currentTurn = u
    · refine ⟨card, rfl, ht, ?_⟩
      simp [ht] at h
      exact h.symm
    · simp [ht] at h

/-- determineRoundWinner reads only the two team rosters of the state. -/
lemma determineRoundWinner_teams (plays : List Play) (s s' : GameState)
    (h1 : s.team1 = s'.team1) :
    determineRoundWinner plays s = determineRoundWinner plays s' := by
  cases plays with
  | nil => rfl
  | cons first rest => simp [determineRoundWinner, h1]

/-- tallyRound reads the state only through determineRoundWinner. -/
lemma tallyRound_teams (s s' : GameState) (h1 : s.team1 = s'.team1)
    (acc : Nat × Nat) (ps : List Play) :
    tallyRound s acc ps = tallyRound s' acc ps := by
  unfold tallyRound
  rw [determineRoundWinner_teams ps s s' h1]

/-- determineGameWinner reads only the two team rosters of the state. -/
lemma determineGameWinner_teams (rounds : Rounds) (s s' : GameState)
    (h1 : s.team1 = s'.team1) :
    determineGameWinner rounds s = determineGameWinner rounds s' := by
  unfold determineGameWinner
  rw [show tallyRound s = tallyRound s' from
    funext fun acc => funext fun ps => tallyRound_teams s s' h1 acc ps]

/-- The rounds component of the mutation section: always the old rounds
with the new play appended to the current round. -/
lemma applyPlay_rounds (m : Match) (u : String) (c : Card) (pid : String) (ts : Int) :
    (applyPlay m u c pid ts).rounds =
      m.rounds.set m.state.currentRound
        (m.rounds.get m.state.currentRound ++ [{ id := pid, userId := u, timestamp := ts, card := c }]) := by
  unfold applyPlay
  by_cases h : (m.rounds.get m.state.currentRound ++ [({ id := pid, userId := u, timestamp := ts, card := c } : Play)]).length = 4
  · simp only [h, if_true]
    cases hg : determineGameWinner
        (m.rounds.set m.state.currentRound
          (m.rounds.get m.state.currentRound ++ [{ id := pid, userId := u, timestamp := ts, card := c }]))
        _ <;> simp [hg]
  · have h' : (m.rounds.get m.state.currentRound).length ≠ 3 := by simpa using h
    simp [h']

/-- When the current round does not reach 4 plays, only currentTurn
changes in the state. -/
lemma applyPlay_state_noclose (m : Match) (u : String) (c : Card) (pid : String) (ts : Int)
    (h : (m.rounds.get m.state.currentRound).length + 1 ≠ 4) :
    (applyPlay m u c pid ts).state = { m.state with currentTurn := getNextPlayer m.state u } := by
  unfold applyPlay
  simp [h]

/-- Congruence instance: updating currentTurn does not change the round
resolver's result. -/
lemma determineRoundWinner_update (plays : List Play) (s : GameState) (ct : String) :
    determineRoundWinner plays { s with currentTurn := ct } = determineRoundWinner plays s :=
  determineRoundWinner_teams _ _ _ rfl

/-- Congruence instance: updating turn, round and roundWinners does not
change the series resolver's result. -/
lemma determineGameWinner_update (rounds : Rounds) (s : GameState) (ct : String)
    (cr : RoundKey) (rws : RoundWinners) :
    determineGameWinner rounds
      { s with currentTurn := ct, currentRound := cr, roundWinners := rws } =
      determineGameWinner rounds s :=
  determineGameWinner_teams _ _ _ rfl

/-- When the current round reaches 4 plays: the round winner is recorded
for the closing round, the round advances, and winner / gameComplete are
set exactly when the recomputed series winner is decided. -/
lemma applyPlay_state_close (m : Match) (u : String) (c : Card) (pid : String) (ts : Int)
    (h3 : (m.rounds.get m.state.currentRound).length = 3) :
    (applyPlay m u c pid ts).state =
      { m.state with
        currentTurn := getNextPlayer m.state u
        currentRound := advanceRound m.state.currentRound
        roundWinners := m.state.roundWinners.set m.state.currentRound
          (determineRoundWinner
            (m.rounds.get m.state.currentRound ++ [{ id := pid, userId := u, timestamp := ts, card := c }])
            m.state)
        winner :=
          (match determineGameWinner
              (m.rounds.set m.state.currentRound
                (m.rounds.get m.state.currentRound ++ [{ id := pid, userId := u, timestamp := ts, card := c }]))
              m.state with
            | some gw => some gw
            | none => m.state.winner)
        gameComplete :=
          (match determineGameWinner
              (m.rounds.set m.state.currentRound
                (m.rounds.get m.state.currentRound ++ [{ id := pid, userId := u, timestamp := ts, card := c }]))
              m.state with
            | some _ => true
            | none => m.state.gameComplete) } := by
  have hlen : (m.rounds.get m.state.currentRound ++
      [({ id := pid, userId := u, timestamp := ts, card := c } : Play)]).length = 4 := by
    simp [h3]
  simp only [applyPlay]
  rw [if_pos hlen]
  rw [determineRoundWinner_update, determineGameWinner_update]
  split <;> rename_i hg <;> simp [hg]

/-- Each step of the reduce only ever raises the accumulator's value. -/
lemma pickHigher_left_le (h c : Play) : h.card.value ≤ (pickHigher h c).card.value := by
  unfold pickHigher
  split
  · exact le_of_lt (by assumption)
  · exact le_refl _

/-- The current element never exceeds the new accumulator. -/
lemma pickHigher_right_le (h c : Play) : c.card.value ≤ (pickHigher h c).card.value := by
  unfold pickHigher
  split
  · exact le_refl _
  · exact le_of_not_lt (by assumption)

/-- The seed's value never exceeds the reduce's result. -/
lemma foldl_pickHigher_init_le (t : List Play) (h : Play) :
    h.card.value ≤ (t.foldl pickHigher h).card.value := by
  induction t generalizing h with
  | nil => exact le_refl _
  | cons c t' ih => exact le_trans (pickHigher_left_le h c) (ih (pickHigher h c))

/-- The reduce returns one of the plays it was given. -/
lemma foldl_pickHigher_mem (t : List Play) (h : Play) :
    t.foldl pickHigher h ∈ h :: t := by
  induction t generalizing h with
  | nil => exact List.mem_singleton.mpr rfl
  | cons c t' ih =>
    have hmem := ih (pickHigher h c)
    rcases List.mem_cons.mp hmem with he | ht
    · rw [List.foldl_cons, he]
      unfold pickHigher
      split
      · exact List.mem_cons_of_mem _ (List.mem_cons_self _ _)
      · exact List.mem_cons_self _ _
    · rw [List.foldl_cons]
      exact List.mem_cons_of_mem _ (List.mem_cons_of_mem _ ht)

/-- Every play's value is bounded by the reduce's result. -/
lemma foldl_pickHigher_le (t : List Play) (h : Play) :
    ∀ p ∈ h :: t, p.card.value ≤ (t.foldl pickHigher h).card.value := by
  induction t generalizing h with
  | nil =>
    intro p hp
    rw [List.mem_singleton.mp hp]
    exact le_refl _
  | cons c t' ih =>
    intro p hp
    rcases List.mem_cons.mp hp with he | ht
    · rw [he]
      exact le_trans (pickHigher_left_le h c) (foldl_pickHigher_init_le t' (pickHigher h c))
    · rcases List.mem_cons.mp ht with he' | ht'
      · rw [he']
        exact le_trans (pickHigher_right_le h c) (foldl_pickHigher_init_le t' (pickHigher h c))
      · exact ih (pickHigher h c) p (List.mem_cons_of_mem _ ht')

/-- The reduce's winner is the first play attaining the maximum: every
play strictly before it in the input has a strictly smaller value. -/
lemma foldl_pickHigher_first (t : List Play) (h : Play) :
    ∃ l₁ l₂, h :: t = l₁ ++ (t.foldl pickHigher h) :: l₂ ∧
      ∀ p ∈ l₁, p.card.value < (t.foldl pickHigher h).card.value := by
  induction t generalizing h with
  | nil => exact ⟨[], [], rfl, by intro p hp; exact absurd hp (List.not_mem_nil p)⟩
  | cons c t' ih =>
    by_cases hc : c.card.value > h.card.value
    · have hpick : pickHigher h c = c := by unfold pickHigher; rw [if_pos hc]
      have hfold : List.foldl pickHigher h (c :: t') = List.foldl pickHigher c t' := by
        rw [List.foldl_cons, hpick]
      obtain ⟨l₁, l₂, hdec, hlt⟩ := ih c
      refine ⟨h :: l₁, l₂, ?_, ?_⟩
      · rw [hfold, List.cons_append, ← hdec]
      · intro p hp
        rw [hfold]
        rcases List.mem_cons.mp hp with he | hm
        · rw [he]
          exact lt_of_lt_of_le hc (foldl_pickHigher_init_le t' c)
        · exact hlt p hm
    · have hpick : pickHigher h c = h := by unfold pickHigher; rw [if_neg hc]
      have hfold : List.foldl pickHigher h (c :: t') = List.foldl pickHigher h t' := by
        rw [List.foldl_cons, hpick]
      obtain ⟨l₁, l₂, hdec, hlt⟩ := ih h
      cases l₁ with
      | nil =>
        have hw : List.foldl pickHigher h t' = h := by
          simp only [List.nil_append] at hdec
          exact (List.cons_eq_cons.mp hdec).1.symm
        refine ⟨[], c :: t', ?_, fun p hp => absurd hp (List.not_mem_nil p)⟩
        rw [hfold, hw]
        simp
      | cons a l₁' =>
        have hcons := List.cons_eq_cons.mp (by simpa using hdec)
        have ha : a = h := hcons.1.symm
        have htail : t' = l₁' ++ (List.foldl pickHigher h t') :: l₂ := hcons.2
        have hhlt : h.card.value < (List.foldl pickHigher h t').card.value := by
          have hha := hlt a (List.mem_cons_self a l₁')
          rw [ha] at hha
          exact hha
        refine ⟨h :: c :: l₁', l₂, ?_, ?_⟩
        · rw [hfold]
          simp only [List.cons_append]
          rw [← htail]
        · intro p hp
          rw [hfold]
          rcases List.mem_cons.mp hp with he | hm
          · rw [he]; exact hhlt
          · rcases List.mem_cons.mp hm with he' | hm'
            · rw [he']
              exact lt_of_le_of_lt (le_of_not_lt hc) hhlt
            · exact hlt p (List.mem_cons_of_mem a hm')

/-- A nonempty round always resolves to one of the two teams. -/
lemma determineRoundWinner_isSome (plays : List Play) (state : GameState)
    (h : plays ≠ []) : ∃ t, determineRoundWinner plays state = some t := by
  cases plays with
  | nil => exact absurd rfl h
  | cons f r =>
    by_cases hc : (r.foldl pickHigher f).userId = state.team1.player1 ∨
        (r.foldl pickHigher f).userId = state.team1.player2
    · exact ⟨TeamId.team1, by simp [determineRoundWinner, hc]⟩
    · exact ⟨TeamId.team2, by simp [determineRoundWinner, hc]⟩

/-- With all three rounds holding exactly 4 plays, the series resolver
always decides: three round wins spread over two teams give one of them at
least two. -/
lemma determineGameWinner_isSome_of_full (rounds : Rounds) (state : GameState)
    (h1 : rounds.round1.length = 4) (h2 : rounds.round2.length = 4)
    (h3 : rounds.round3.length = 4) :
    (determineGameWinner rounds state).isSome = true := by
  obtain ⟨t1, e1⟩ := determineRoundWinner_isSome rounds.round1 state
    (by intro hh; rw [hh] at h1; exact absurd h1 (by decide))
  obtain ⟨t2, e2⟩ := determineRoundWinner_isSome rounds.round2 state
    (by intro hh; rw [hh] at h2; exact absurd h2 (by decide))
  obtain ⟨t3, e3⟩ := determineRoundWinner_isSome rounds.round3 state
    (by intro hh; rw [hh] at h3; exact absurd h3 (by decide))
  unfold determineGameWinner
  simp only [List.foldl, tallyRound, h1, h2, h3, if_true, e1, e2, e3]
  cases t1 <;> cases t2 <;> cases t3 <;> simp

/-! ### Reachable-state invariant -/

/-- The state invariant maintained by submitPlay as long as no play is
submitted against an already completed match: a round's winner is
recorded exactly when it holds 4 plays, the accepting round is not full
unless the match completed, rounds before the current one are full and
rounds after it are empty. -/
def matchInv (m : Match) : Prop :=
  (∀ r : RoundKey, ((m.state.roundWinners.get r).isSome = true ↔ (m.rounds.get r).length = 4)) ∧
  (m.state.gameComplete = false → (m.rounds.get m.state.currentRound).length < 4) ∧
  ((m.rounds.get m.state.currentRound).length ≤ 4) ∧
  (match m.state.currentRound with
   | RoundKey.round1 => m.rounds.round2 = [] ∧ m.rounds.round3 = []
   | RoundKey.round2 => m.rounds.round1.length = 4 ∧ m.rounds.round3 = []
   | RoundKey.round3 => m.rounds.round1.length = 4 ∧ m.rounds.round2.length = 4)

/-- Match states reachable through createMatch followed by accepted
submissions, none of which was made against an already completed match. -/
inductive ReachableNC : Match → Prop
  | init (t1 t2 : Team) : ReachableNC (createMatch t1 t2)
  | step {m m' : Match} (u : String) (v : Int) (s pid : String) (ts : Int) :
      ReachableNC m → m.state.gameComplete = false →
      submitPlay m u v s pid ts = Except.ok m' → ReachableNC m'

lemma matchInv_init (t1 t2 : Team) : matchInv (createMatch t1 t2) := by
  refine ⟨?_, ?_, ?_, ?_⟩
  · intro r
    cases r <;> simp [createMatch, Rounds.get, RoundWinners.get]
  · intro _
    simp [createMatch, Rounds.get]
  · simp [createMatch, Rounds.get]
  · simp [createMatch, Rounds.get]

/-- From the winner-iff-full invariant component: a round that is not
full has no recorded winner. -/
lemma roundWinners_get_none_of_len_ne {m : Match}
    (hinv4 : ∀ r : RoundKey, ((m.state.roundWinners.get r).isSome = true ↔ (m.rounds.get r).length = 4))
    (r : RoundKey) (hlen : (m.rounds.get r).length ≠ 4) :
    m.state.roundWinners.get r = none := by
  have hiff := hinv4 r
  rcases hw : m.state.roundWinners.get r with _ | t
  · rfl
  · rw [hw] at hiff
    simp at hiff
    exact absurd hiff hlen

lemma matchInv_step {m m' : Match} (hinv : matchInv m) (hc : m.state.gameComplete = false)
    {u : String} {v : Int} {s pid : String} {ts : Int}
    (h : submitPlay m u v s pid ts = Except.ok m') : matchInv m' := by
  obtain ⟨card, hp, hturn, rfl⟩ := submitPlay_ok_elim h
  obtain ⟨i4, i3, i5, icur⟩ := hinv
  have hlt : (m.rounds.get m.state.currentRound).length < 4 := i3 hc
  have hrounds := applyPlay_rounds m u card pid ts
  by_cases h4 : (m.rounds.get m.state.currentRound).length + 1 = 4
  · -- the 4th play of the current round: the round closes
    have h3 : (m.rounds.get m.state.currentRound).length = 3 := by omega
    have hstate := applyPlay_state_close m u card pid ts h3
    obtain ⟨tw, htw⟩ := determineRoundWinner_isSome
      (m.rounds.get m.state.currentRound ++ [{ id := pid, userId := u, timestamp := ts, card := card }])
      m.state (by simp)
    have hnp : (m.rounds.get m.state.currentRound ++
        [({ id := pid, userId := u, timestamp := ts, card := card } : Play)]).length = 4 := by
      simpa using h4
    cases hcr : m.state.currentRound with
    | round1 =>
      rw [hcr] at hstate hrounds htw hnp h3
      rw [hcr] at icur
      have hw2 : m.state.roundWinners.get RoundKey.round2 = none :=
        roundWinners_get_none_of_len_ne i4 _ (by simp [Rounds.get, icur.1])
      have hw3 : m.state.roundWinners.get RoundKey.round3 = none :=
        roundWinners_get_none_of_len_ne i4 _ (by simp [Rounds.get, icur.2])
      simp only [RoundWinners.get] at hw2 hw3
      refine ⟨?_, ?_, ?_, ?_⟩
      · intro r
        cases r <;>
          simp_all [Rounds.get, Rounds.set, RoundWinners.get, RoundWinners.set, advanceRound]
      · intro _
        simp_all [Rounds.get, Rounds.set, advanceRound]
      · simp_all [Rounds.get, Rounds.set, advanceRound]
      · simp_all [Rounds.get, Rounds.set, advanceRound]
    | round2 =>
      rw [hcr] at hstate hrounds htw hnp h3
      rw [hcr] at icur
      have hw1 : (m.state.roundWinners.get RoundKey.round1).isSome = true :=
        (i4 RoundKey.round1).mpr (by simp [Rounds.get, icur.1])
      have hw3 : m.state.roundWinners.get RoundKey.round3 = none :=
        roundWinners_get_none_of_len_ne i4 _ (by simp [Rounds.get, icur.2])
      simp only [RoundWinners.get] at hw1 hw3
      refine ⟨?_, ?_, ?_, ?_⟩
      · intro r
        cases r <;>
          simp_all [Rounds.get, Rounds.set, RoundWinners.get, RoundWinners.set, advanceRound]
      · intro _
        simp_all [Rounds.get, Rounds.set, advanceRound]
      · simp_all [Rounds.get, Rounds.set, advanceRound]
      · simp_all [Rounds.get, Rounds.set, advanceRound]
    | round3 =>
      rw [hcr] at hstate hrounds htw hnp h3
      rw [hcr] at icur
      have hfull : (determineGameWinner
          (m.rounds.set RoundKey.round3
            (m.rounds.get RoundKey.round3 ++ [{ id := pid, userId := u, timestamp := ts, card := card }]))
          m.state).isSome = true := by
        apply determineGameWinner_isSome_of_full
        · simpa [Rounds.set] using icur.1
        · simpa [Rounds.set] using icur.2
        · simpa [Rounds.set, Rounds.get] using hnp
      have hw1 : (m.state.roundWinners.get RoundKey.round1).isSome = true :=
        (i4 RoundKey.round1).mpr (by simp [Rounds.get, icur.1])
      have hw2 : (m.state.roundWinners.get RoundKey.round2).isSome = true :=
        (i4 RoundKey.round2).mpr (by simp [Rounds.get, icur.2])
      simp only [RoundWinners.get] at hw1 hw2
      refine ⟨?_, ?_, ?_, ?_⟩
      · intro r
        cases r <;>
          simp_all [Rounds.get, Rounds.set, RoundWinners.get, RoundWinners.set, advanceRound]
      · intro hgc
        rw [hstate] at hgc
        rcases hg : determineGameWinner
            (m.rounds.set RoundKey.round3
              (m.rounds.get RoundKey.round3 ++ [{ id := pid, userId := u, timestamp := ts, card := card }]))
            m.state with _ | gw
        · rw [hg] at hfull
          exact absurd hfull (by simp)
        · simp [hg] at hgc
      · simp_all [Rounds.get, Rounds.set, advanceRound]
      · simp_all [Rounds.get, Rounds.set, advanceRound]
  · -- the round stays open: only the turn advances
    have hstate := applyPlay_state_noclose m u card pid ts h4
    refine ⟨?_, ?_, ?_, ?_⟩
    · intro r
      simp only [hstate, hrounds]
      simp only [rounds_get_set]
      by_cases hr : r = m.state.currentRound
      · rw [if_pos hr, hr]
        have hnone : m.state.roundWinners.get m.state.currentRound = none :=
          roundWinners_get_none_of_len_ne i4 _ (by omega)
        rw [hnone]
        simp [List.length_append]
        omega
      · rw [if_neg hr]
        exact i4 r
    · intro _
      simp only [hstate, hrounds]
      simp only [rounds_get_set, if_pos rfl, List.length_append]
      simp
      omega
    · simp only [hstate, hrounds]
      simp only [rounds_get_set, if_pos rfl, List.length_append]
      simp
      omega
    · simp only [hstate, hrounds]
      cases hcr : m.state.currentRound with
      | round1 =>
        rw [hcr] at icur
        simp_all [Rounds.get, Rounds.set]
      | round2 =>
        rw [hcr] at icur
        simp_all [Rounds.get, Rounds.set]
      | round3 =>
        rw [hcr] at icur
        simp_all [Rounds.get, Rounds.set]

/-- Every reachable match state satisfies the invariant. -/
lemma reachable_inv {m : Match} (h : ReachableNC m) : matchInv m := by
  induction h with
  | init t1 t2 => exact matchInv_init t1 t2
  | step u v s pid ts hr hcomp hsub ih => exact matchInv_step ih hcomp hsub

/-- The turn always advances to getNextPlayer of the submitter, whether or
not the round closes. -/
lemma applyPlay_currentTurn (m : Match) (u : String) (c : Card) (pid : String) (ts : Int) :
    (applyPlay m u c pid ts).state.currentTurn = getNextPlayer m.state u := by
  by_cases h4 : (m.rounds.get m.state.currentRound).length + 1 = 4
  · have h3 : (m.rounds.get m.state.currentRound).length = 3 := by omega
    rw [applyPlay_state_close m u c pid ts h3]
  · rw [applyPlay_state_noclose m u c pid ts h4]

/-- The two team rosters are never touched by the mutation section. -/
lemma applyPlay_teams (m : Match) (u : String) (c : Card) (pid : String) (ts : Int) :
    (applyPlay m u c pid ts).state.team1 = m.state.team1 ∧
      (applyPlay m u c pid ts).state.team2 = m.state.team2 := by
  by_cases h4 : (m.rounds.get m.state.currentRound).length + 1 = 4
  · have h3 : (m.rounds.get m.state.currentRound).length = 3 := by omega
    rw [applyPlay_state_close m u c pid ts h3]
    exact ⟨rfl, rfl⟩
  · rw [applyPlay_state_noclose m u c pid ts h4]
    exact ⟨rfl, rfl⟩

/-- Card validation fails exactly on a value outside 1..13 or a suit
string outside the four-element enumeration. -/
lemma parseCard_eq_none_iff (v : Int) (s : String) :
    parseCard v s = none ↔
      ¬(1 ≤ v ∧ v ≤ 13 ∧ (s = "hearts" ∨ s = "diamonds" ∨ s = "clubs" ∨ s = "spades")) := by
  unfold parseCard parseSuit
  split_ifs with h1 h2 h3 h4 h5 <;> simp_all

/-- Any rejected submission leaves the global matches map untouched. -/
lemma submitPlayRoute_error_frame (matchesMap : String → Option Match) (matchId userId : String)
    (v : Int) (s pid : String) (ts : Int) (e : SubmitError)
    (h : (submitPlayRoute matchesMap matchId userId v s pid ts).2 = Except.error e) :
    (submitPlayRoute matchesMap matchId userId v s pid ts).1 = matchesMap := by
  unfold submitPlayRoute
  cases hm : matchesMap matchId with
  | none => simp [hm]
  | some mm =>
    cases hs : submitPlay mm userId v s pid ts with
    | ok m2 =>
      exfalso
      unfold submitPlayRoute at h
      rw [hm] at h
      simp [hs] at h
    | error e2 => simp [hm, hs]

/-! ### The Convex-backed variant (src/unnamed/part_001 and part_002) -/

/-- The match document of convex/schema.ts: flattened team fields and one
optional winner per round; optional fields are undefined until patched. -/
structure ConvexMatch where
  team1_player1 : String
  team1_player2 : String
  team2_player1 : String
  team2_player2 : String
  current_turn : String
  current_round : RoundKey
  round1_winner : Option TeamId
  round2_winner : Option TeamId
  round3_winner : Option TeamId
  game_winner : Option TeamId
  is_complete : Bool
deriving DecidableEq, Repr

/-- A row of the plays table, restricted to the fields the mutation reads
(match_id and round are implicit in the per-round lists below). -/
structure ConvexPlay where
  user_id : String
  timestamp : Int
  card_value : Int
  card_suit : Suit
deriving DecidableEq, Repr

/-- One match's slice of the Convex database: the match document and its
plays grouped by round, each list in insertion order (the order collect
returns). -/
structure ConvexDb where
  doc : ConvexMatch
  round1 : List ConvexPlay
  round2 : List ConvexPlay
  round3 : List ConvexPlay
deriving DecidableEq, Repr

/-- The plays of a round, as the mutation's filtered collect returns
them. -/
def ConvexDb.getRound (db : ConvexDb) : RoundKey → List ConvexPlay
  | RoundKey.round1 => db.round1
  | RoundKey.round2 => db.round2
  | RoundKey.round3 => db.round3

/-- Replace one round's play list (the insert of a new play row). -/
def ConvexDb.setRound (db : ConvexDb) (k : RoundKey) (ps : List ConvexPlay) : ConvexDb :=
  match k with
  | RoundKey.round1 => { db with round1 := ps }
  | RoundKey.round2 => { db with round2 := ps }
  | RoundKey.round3 => { db with round3 := ps }

/-- The dynamic field write updateData of round plus "_winner". -/
def ConvexMatch.setRoundWinner (m : ConvexMatch) (k : RoundKey) (v : Option TeamId) : ConvexMatch :=
  match k with
  | RoundKey.round1 => { m with round1_winner := v }
  | RoundKey.round2 => { m with round2_winner := v }
  | RoundKey.round3 => { m with round3_winner := v }

/-- getNextPlayer of src/unnamed/part_001: chained identity checks with a
fallback to team1_player1. -/
def convexGetNextPlayer (m : ConvexMatch) (currentPlayer : String) : String :=
  if currentPlayer = m.team1_player1 then m.team2_player1
  else if currentPlayer = m.team2_player1 then m.team1_player2
  else if currentPlayer = m.team1_player2 then m.team2_player2
  else m.team1_player1

/-- The reduce callback of part_001's determineRoundWinner. -/
def convexPickHigher (highest current : ConvexPlay) : ConvexPlay :=
  if current.card_value > highest.card_value then current else highest

/-- determineRoundWinner of src/unnamed/part_001: same reduce as the
in-memory variant, over the flattened play rows; none models the throw of
reduce on an empty array. -/
def convexDetermineRoundWinner (plays : List ConvexPlay) (m : ConvexMatch) : Option TeamId :=
  match plays with
  | [] => none
  | first :: rest =>
    let winningPlay := rest.foldl convexPickHigher first
    if winningPlay.user_id = m.team1_player1 ∨ winningPlay.user_id = m.team1_player2 then
      some TeamId.team1
    else
      some TeamId.team2

/-- The plays.create mutation of src/unnamed/part_001 (lines 36-97): check
the turn against the document, insert the play, re-collect the round's
plays, and patch the document. The series check compares round1_winner
and round2_winner as read from the document BEFORE this patch, plus the
freshly computed winner of the closing round; it never re-reads the
winner being written in the same updateData. -/
def convexPlaysCreate (db : ConvexDb) (user_id : String) (round : RoundKey)
    (timestamp : Int) (card_value : Int) (card_suit : Suit) :
    Except SubmitError ConvexDb :=
  let m := db.doc
  if m.current_turn = user_id then
    let play : ConvexPlay := { user_id := user_id, timestamp := timestamp,
                               card_value := card_value, card_suit := card_suit }
    let db1 := db.setRound round (db.getRound round ++ [play])
    let roundPlays := db1.getRound round
    if roundPlays.length = 4 then
      let roundWinner := convexDetermineRoundWinner roundPlays m
      let m2 := { m.setRoundWinner round roundWinner with
        current_turn := convexGetNextPlayer m user_id
        current_round := if round = RoundKey.round1 then RoundKey.round2
                         else if round = RoundKey.round2 then RoundKey.round3
                         else m.current_round }
      if (m.round1_winner = some TeamId.team1 ∧ m.round2_winner = some TeamId.team1) ∨
         (m.round1_winner = some TeamId.team1 ∧ m.round2_winner = some TeamId.team2 ∧
           roundWinner = some TeamId.team1) ∨
         (m.round1_winner = some TeamId.team2 ∧ m.round2_winner = some TeamId.team1 ∧
           roundWinner = some TeamId.team1) then
        Except.ok { db1 with doc :=
          { m2 with game_winner := some TeamId.team1, is_complete := true } }
      else if (m.round1_winner = some TeamId.team2 ∧ m.round2_winner = some TeamId.team2) ∨
         (m.round1_winner = some TeamId.team1 ∧ m.round2_winner = some TeamId.team2 ∧
           roundWinner = some TeamId.team2) ∨
         (m.round1_winner = some TeamId.team2 ∧ m.round2_winner = some TeamId.team1 ∧
           roundWinner = some TeamId.team2) then
        Except.ok { db1 with doc :=
          { m2 with game_winner := some TeamId.team2, is_complete := true } }
      else
        Except.ok { db1 with doc := m2 }
    else
      Except.ok { db1 with doc := { m with current_turn := convexGetNextPlayer m user_id } }
  else
    Except.error SubmitError.turnError

/-- The play route of src/unnamed/part_002: card validation, the route's
own turn check, then the mutation with round := the document's
current_round. Like the in-memory route, it never checks is_complete. -/
def convexSubmitPlay (db : ConvexDb) (userId : String) (cardValue : Int) (cardSuit : String)
    (ts : Int) : Except SubmitError ConvexDb :=
  match parseCard cardValue cardSuit with
  | none => Except.error SubmitError.validationError
  | some card =>
    if db.doc.current_turn = userId then
      convexPlaysCreate db userId db.doc.current_round ts card.value card.suit
    else
      Except.error SubmitError.turnError

/-- The match/create route of part_002 over matches.create of part_000:
turn starts at team1.player1 in round1, winners undefined, not complete. -/
def convexCreateMatch (t1 t2 : Team) : ConvexDb :=
  { doc := { team1_player1 := t1.player1, team1_player2 := t1.player2,
             team2_player1 := t2.player1, team2_player2 := t2.player2,
             current_turn := t1.player1, current_round := RoundKey.round1,
             round1_winner := none, round2_winner := none, round3_winner := none,
             game_winner := none, is_complete := false },
    round1 := [], round2 := [], round3 := [] }

/-- Apply one submission to the Convex variant, keeping the previous
state on rejection. The playId field of the submission is unused (Convex
assigns row ids itself). -/
def convexStepOk (db : ConvexDb) (r : Submission) : ConvexDb :=
  match convexSubmitPlay db r.userId r.cardValue r.cardSuit r.now with
  | Except.ok db' => db'
  | Except.error _ => db

/-- Apply a list of submissions to the Convex variant, stopping at the
first rejection. -/
def convexRunE (db : ConvexDb) : List Submission → Except SubmitError ConvexDb
  | [] => Except.ok db
  | r :: rest =>
    match convexSubmitPlay db r.userId r.cardValue r.cardSuit r.now with
    | Except.ok db' => convexRunE db' rest
    | Except.error e => Except.error e

/-- The concrete test match on the Convex variant: team1 = {A, B},
team2 = {C, D}. -/
def mC0 : ConvexDb :=
  convexCreateMatch { player1 := "A", player2 := "B" } { player1 := "C", player2 := "D" }

/-- The Convex match state after the first n submissions of the script. -/
def runC (n : Nat) : ConvexDb := (reqsB.take n).foldl convexStepOk mC0

/-! ### Claim theorems -/

/-- C7: for every assignment of plays giving all three rounds exactly 4
plays, the series resolver is decided: it never returns undecided on
three resolved rounds, since the three round wins spread over two teams
always give one of them at least two. -/
theorem c7_series_decided_on_three_rounds (rounds : Rounds) (state : GameState)
    (h1 : rounds.round1.length = 4) (h2 : rounds.round2.length = 4)
    (h3 : rounds.round3.length = 4) :
    (determineGameWinner rounds state).isSome = true :=
  determineGameWinner_isSome_of_full rounds state h1 h2 h3

/-- Witness for C7 at the concrete 12-play match state of the script. -/
theorem c7_series_decided_witness :
    (determineGameWinner (runB 12).rounds (runB 12).state).isSome = true :=
  c7_series_decided_on_three_rounds (runB 12).rounds (runB 12).state
    (by decide) (by decide) (by decide)

/-- C8: every submitPlay route call that fails a precondition (unknown
match, invalid card, or wrong turn) produces zero observable state change:
the global matches map is exactly what it was, so no play is appended and
no turn, round, winner or completion field moves. -/
theorem c8_rejection_purity (matchesMap : String → Option Match) (matchId userId : String)
    (v : Int) (s pid : String) (ts : Int) (e : SubmitError)
    (h : (submitPlayRoute matchesMap matchId userId v s pid ts).2 = Except.error e) :
    (submitPlayRoute matchesMap matchId userId v s pid ts).1 = matchesMap :=
  submitPlayRoute_error_frame matchesMap matchId userId v s pid ts e h

/-- Witness for C8: rejected submission against an absent match. -/
theorem c8_rejection_purity_witness :
    (submitPlayRoute (fun _ => none) "m1" "A" 5 "hearts" "p" 0).1 = (fun _ => none) :=
  c8_rejection_purity (fun _ => none) "m1" "A" 5 "hearts" "p" 0 SubmitError.notFound rfl

/-- C9: a submitted card is rejected with ValidationError exactly when its
value is outside 1..13 or its suit outside the four-suit enumeration (so
it is accepted past validation exactly for in-range cards), and such a
rejection happens before any state mutation: the matches map is
unchanged. The embedding is total, so no input crashes it. -/
theorem c9_card_validation (m : Match) (userId : String) (v : Int) (s pid : String) (ts : Int) :
    (submitPlay m userId v s pid ts = Except.error SubmitError.validationError ↔
      ¬(1 ≤ v ∧ v ≤ 13 ∧ (s = "hearts" ∨ s = "diamonds" ∨ s = "clubs" ∨ s = "spades"))) ∧
    (∀ (matchesMap : String → Option Match) (matchId : String),
      (submitPlayRoute matchesMap matchId userId v s pid ts).2 =
          Except.error SubmitError.validationError →
      (submitPlayRoute matchesMap matchId userId v s pid ts).1 = matchesMap) := by
  constructor
  · cases hp : parseCard v s with
    | none =>
      have hv := (parseCard_eq_none_iff v s).mp hp
      simp [submitPlay, hp, hv]
    | some c =>
      have hvalid : 1 ≤ v ∧ v ≤ 13 ∧ (s = "hearts" ∨ s = "diamonds" ∨ s = "clubs" ∨ s = "spades") := by
        by_contra hcon
        rw [(parseCard_eq_none_iff v s).mpr hcon] at hp
        exact absurd hp (by simp)
      simp only [submitPlay, hp]
      by_cases ht : m.state.currentTurn = userId
      · simp [ht, hvalid]
      · simp [ht, hvalid]
  · intro matchesMap matchId h
    exact submitPlayRoute_error_frame matchesMap matchId userId v s pid ts
      SubmitError.validationError h

/-- Witness for C9 at card.value = 14: rejected with ValidationError. -/
theorem c9_card_validation_witness :
    submitPlay mB0 "A" 14 "hearts" "p" 0 = Except.error SubmitError.validationError :=
  (c9_card_validation mB0 "A" 14 "hearts" "p" 0).1.mpr (by decide)

/-- C5: with the four seats pairwise distinct, getNextPlayer realizes the
fixed ring team1.player1 → team2.player1 → team1.player2 → team2.player2 →
team1.player1; every accepted play is by the current turn holder and sets
the next turn to getNextPlayer of the submitter; and getNextPlayer reads
nothing of the state beyond the two rosters, so round outcomes never
affect the ring. -/
theorem c5_turn_ring (m : Match)
    (hd1 : m.state.team1.player1 ≠ m.state.team1.player2)
    (hd2 : m.state.team1.player1 ≠ m.state.team2.player1)
    (hd3 : m.state.team1.player1 ≠ m.state.team2.player2)
    (hd4 : m.state.team1.player2 ≠ m.state.team2.player1)
    (hd5 : m.state.team1.player2 ≠ m.state.team2.player2)
    (hd6 : m.state.team2.player1 ≠ m.state.team2.player2) :
    getNextPlayer m.state m.state.team1.player1 = m.state.team2.player1 ∧
    getNextPlayer m.state m.state.team2.player1 = m.state.team1.player2 ∧
    getNextPlayer m.state m.state.team1.player2 = m.state.team2.player2 ∧
    getNextPlayer m.state m.state.team2.player2 = m.state.team1.player1 ∧
    (∀ (u : String) (v : Int) (s pid : String) (ts : Int) (m' : Match),
      submitPlay m u v s pid ts = Except.ok m' →
      u = m.state.currentTurn ∧ m'.state.currentTurn = getNextPlayer m.state u) ∧
    (∀ (s' : GameState) (p : String), s'.team1 = m.state.team1 → s'.team2 = m.state.team2 →
      getNextPlayer s' p = getNextPlayer m.state p) := by
  refine ⟨?_, ?_, ?_, ?_, ?_, ?_⟩
  · unfold getNextPlayer
    rw [if_pos (Or.inl rfl), if_pos rfl]
  · unfold getNextPlayer
    rw [if_neg ?_, if_pos rfl]
    push_neg
    exact ⟨Ne.symm hd2, Ne.symm hd4⟩
  · unfold getNextPlayer
    rw [if_pos (Or.inr rfl), if_neg (Ne.symm hd1)]
  · unfold getNextPlayer
    rw [if_neg ?_, if_neg (Ne.symm hd6)]
    push_neg
    exact ⟨Ne.symm hd3, Ne.symm hd5⟩
  · intro u v s pid ts m' hsub
    obtain ⟨card, hp, hturn, rfl⟩ := submitPlay_ok_elim hsub
    exact ⟨hturn.symm, applyPlay_currentTurn m u card pid ts⟩
  · intro s' p h1 h2
    unfold getNextPlayer
    rw [h1, h2]

/-- Witness for C5 at the concrete match with distinct seats A, B, C, D. -/
theorem c5_turn_ring_witness :
    getNextPlayer mB0.state mB0.state.team1.player1 = mB0.state.team2.player1 :=
  (c5_turn_ring mB0 (by decide) (by decide) (by decide) (by decide) (by decide) (by decide)).1

/-- C6: on every nonempty play list the round resolver picks the play with
the greatest card value — the first such play in input order on a tie —
and returns team1 exactly when that play's userId is one of team1's two
seats, team2 in every other case (a userId on neither roster also maps to
team2). -/
theorem c6_round_resolver (plays : List Play) (state : GameState) (h : plays ≠ []) :
    ∃ l₁ w l₂,
      plays = l₁ ++ w :: l₂ ∧
      (∀ p ∈ plays, p.card.value ≤ w.card.value) ∧
      (∀ p ∈ l₁, p.card.value < w.card.value) ∧
      determineRoundWinner plays state =
        some (if w.userId = state.team1.player1 ∨ w.userId = state.team1.player2
              then TeamId.team1 else TeamId.team2) := by
  cases plays with
  | nil => exact absurd rfl h
  | cons first rest =>
    obtain ⟨l₁, l₂, hdec, hlt⟩ := foldl_pickHigher_first rest first
    refine ⟨l₁, rest.foldl pickHigher first, l₂, hdec, ?_, hlt, ?_⟩
    · exact foldl_pickHigher_le rest first
    · simp only [determineRoundWinner]
      split <;> rfl

/-- Witness for C6 on a two-play list tied at value 7: the first play (by
C, a team2 member) wins the tie. -/
theorem c6_round_resolver_witness :
    ([({ id := "q1", userId := "C", timestamp := 0,
         card := { value := 7, suit := Suit.spades } } : Play),
      { id := "q2", userId := "A", timestamp := 1,
        card := { value := 7, suit := Suit.hearts } }] : List Play) ≠ [] ∧
    ∃ l₁ w l₂,
      ([({ id := "q1", userId := "C", timestamp := 0,
           card := { value := 7, suit := Suit.spades } } : Play),
        { id := "q2", userId := "A", timestamp := 1,
          card := { value := 7, suit := Suit.hearts } }] : List Play) = l₁ ++ w :: l₂ ∧
      (∀ p ∈ ([({ id := "q1", userId := "C", timestamp := 0,
                  card := { value := 7, suit := Suit.spades } } : Play),
               { id := "q2", userId := "A", timestamp := 1,
                 card := { value := 7, suit := Suit.hearts } }] : List Play),
        p.card.value ≤ w.card.value) ∧
      (∀ p ∈ l₁, p.card.value < w.card.value) ∧
      determineRoundWinner
          ([({ id := "q1", userId := "C", timestamp := 0,
               card := { value := 7, suit := Suit.spades } } : Play),
            { id := "q2", userId := "A", timestamp := 1,
              card := { value := 7, suit := Suit.hearts } }] : List Play) mB0.state =
        some (if w.userId = mB0.state.team1.player1 ∨ w.userId = mB0.state.team1.player2
              then TeamId.team1 else TeamId.team2) :=
  ⟨by decide, c6_round_resolver _ mB0.state (by decide)⟩

/-- C10: an accepted play never touches the team rosters, the play lists
of rounds other than the current one, or those rounds' recorded winners;
and when the current round does not close, roundWinners, currentRound,
winner and gameComplete are all unchanged as well. -/
theorem c10_frame_condition (m : Match) (u : String) (v : Int) (s pid : String) (ts : Int)
    (m' : Match) (hsub : submitPlay m u v s pid ts = Except.ok m') :
    m'.state.team1 = m.state.team1 ∧
    m'.state.team2 = m.state.team2 ∧
    (∀ r : RoundKey, r ≠ m.state.currentRound → m'.rounds.get r = m.rounds.get r) ∧
    (∀ r : RoundKey, r ≠ m.state.currentRound →
      m'.state.roundWinners.get r = m.state.roundWinners.get r) ∧
    ((m.rounds.get m.state.currentRound).length + 1 ≠ 4 →
      m'.state.roundWinners = m.state.roundWinners ∧
      m'.state.currentRound = m.state.currentRound ∧
      m'.state.winner = m.state.winner ∧
      m'.state.gameComplete = m.state.gameComplete) := by
  obtain ⟨card, hp, hturn, rfl⟩ := submitPlay_ok_elim hsub
  have hrounds := applyPlay_rounds m u card pid ts
  refine ⟨(applyPlay_teams m u card pid ts).1, (applyPlay_teams m u card pid ts).2, ?_, ?_, ?_⟩
  · intro r hr
    rw [hrounds]
    simp only [rounds_get_set, if_neg hr]
  · intro r hr
    by_cases h4 : (m.rounds.get m.state.currentRound).length + 1 = 4
    · have h3 : (m.rounds.get m.state.currentRound).length = 3 := by omega
      rw [applyPlay_state_close m u card pid ts h3]
      simp only [roundWinners_get_set, if_neg hr]
    · rw [applyPlay_state_noclose m u card pid ts h4]
  · intro h4
    rw [applyPlay_state_noclose m u card pid ts h4]
    exact ⟨rfl, rfl, rfl, rfl⟩

/-- Witness for C10 at the first accepted play of the concrete script. -/
theorem c10_frame_condition_witness :
    (runB 1).state.team1 = mB0.state.team1 :=
  (c10_frame_condition mB0 "A" 12 "spades" "p1" 1 (runB 1) rfl).1

/-- In the in-memory variant of src/api/index.ts, when one team has
already won round1 (4 plays resolving to t) and the accepted play closes
round2 as its 4th play, also resolving to t, with round3 still empty,
that same transition sets gameWinner to t and isComplete to true,
advances currentRound to round3, and leaves round3 without any play:
there the series resolver is evaluated after every round closure. The
Convex variant behaves differently; see the claim theorem below. -/
theorem indexSweep_ends_after_round2 (m : Match) (t : TeamId) (u : String) (v : Int)
    (s pid : String) (ts : Int) (m' : Match)
    (hcur : m.state.currentRound = RoundKey.round2)
    (h1len : (m.rounds.get RoundKey.round1).length = 4)
    (h2len : (m.rounds.get RoundKey.round2).length = 3)
    (h3nil : m.rounds.get RoundKey.round3 = [])
    (h1win : determineRoundWinner (m.rounds.get RoundKey.round1) m.state = some t)
    (hsub : submitPlay m u v s pid ts = Except.ok m')
    (h2win : determineRoundWinner (m'.rounds.get RoundKey.round2) m.state = some t) :
    m'.state.winner = some t ∧ m'.state.gameComplete = true ∧
      m'.rounds.get RoundKey.round3 = [] ∧ m'.state.currentRound = RoundKey.round3 := by
  obtain ⟨card, hp, hturn, rfl⟩ := submitPlay_ok_elim hsub
  have hrounds := applyPlay_rounds m u card pid ts
  rw [hcur] at hrounds
  have hget2 : (applyPlay m u card pid ts).rounds.get RoundKey.round2 =
      m.rounds.get RoundKey.round2 ++
        [{ id := pid, userId := u, timestamp := ts, card := card }] := by
    rw [hrounds]
    simp [rounds_get_set]
  rw [hget2] at h2win
  have h3 : (m.rounds.get m.state.currentRound).length = 3 := by rw [hcur]; exact h2len
  have hstate := applyPlay_state_close m u card pid ts h3
  rw [hcur] at hstate
  have h1len' : m.rounds.round1.length = 4 := h1len
  have h1win' : determineRoundWinner m.rounds.round1 m.state = some t := h1win
  have h3nil' : m.rounds.round3 = [] := h3nil
  have h2len' : m.rounds.round2.length = 3 := h2len
  have h2win' : determineRoundWinner
      (m.rounds.round2 ++ [{ id := pid, userId := u, timestamp := ts, card := card }])
      m.state = some t := h2win
  have hg : determineGameWinner
      (m.rounds.set RoundKey.round2
        (m.rounds.get RoundKey.round2 ++ [{ id := pid, userId := u, timestamp := ts, card := card }]))
      m.state = some t := by
    cases t with
    | team1 =>
      unfold determineGameWinner
      simp [tallyRound, Rounds.set, Rounds.get, h1len', h1win', h3nil', h2len', h2win']
    | team2 =>
      unfold determineGameWinner
      simp [tallyRound, Rounds.set, Rounds.get, h1len', h1win', h3nil', h2len', h2win']
  refine ⟨?_, ?_, ?_, ?_⟩
  · simp only [hstate]
    rw [hg]
  · simp only [hstate]
    rw [hg]
  · rw [hrounds]
    simp [rounds_get_set, h3nil]
  · simp only [hstate]
    rfl

/-- The in-memory result at the 8th play of the concrete script: team1
swept rounds 1 and 2, the match completes there and round3 stays empty. -/
theorem indexSweep_ends_after_round2_witness :
    (runB 8).state.winner = some TeamId.team1 ∧ (runB 8).state.gameComplete = true ∧
      (runB 8).rounds.get RoundKey.round3 = [] ∧
      (runB 8).state.currentRound = RoundKey.round3 :=
  indexSweep_ends_after_round2 (runB 7) TeamId.team1 "D" 2 "diamonds" "p8" 8 (runB 8)
    (by decide) (by decide) (by decide) (by decide) (by decide) rfl (by decide)

/-- C1 (code-bug evaluation, Convex variant of src/unnamed/part_001):
running the 8-play script in which team1 wins round1 and round2 (both
round winners recorded as team1), the 8th play — the one closing
round2 — does NOT set game_winner or is_complete, because the series
check reads round2_winner from the pre-patch document, where it is still
unset while round2 is being closed. current_round advances to round3,
the 9th play is accepted and recorded into round3 (so round3 does open),
and the match only completes at the 12th play. The in-memory variant at
the same script does complete at the 8th play
(indexSweep_ends_after_round2_witness), so the cited Convex code
violates the claimed property. -/
theorem c1_convex_sweep_not_completed_at_8th_play :
    convexRunE mC0 (reqsB.take 8) = Except.ok (runC 8) ∧
    (runC 8).doc.round1_winner = some TeamId.team1 ∧
    (runC 8).doc.round2_winner = some TeamId.team1 ∧
    (runC 8).doc.is_complete = false ∧
    (runC 8).doc.game_winner = none ∧
    (runC 8).doc.current_round = RoundKey.round3 ∧
    convexSubmitPlay (runC 8) "A" 5 "hearts" 9 = Except.ok (runC 9) ∧
    (runC 9).round3.length = 1 ∧
    (runC 12).doc.is_complete = true ∧
    (runC 12).doc.game_winner = some TeamId.team1 :=
  ⟨rfl, rfl, rfl, rfl, rfl, rfl, rfl, rfl, rfl, rfl⟩

/-- C2 (code-bug evaluation): after the 8th play of the script the match
is complete with gameWinner team1, yet the 9th submission is accepted and
its play recorded into round3 — the submitPlay handler performs no
isComplete check, so a play on a completed match is not rejected. -/
theorem c2_completed_match_still_accepts_plays :
    runPlaysE mB0 (reqsB.take 8) = Except.ok (runB 8) ∧
    (runB 8).state.gameComplete = true ∧
    (runB 8).state.winner = some TeamId.team1 ∧
    submitPlay (runB 8) "A" 5 "hearts" "p9" 9 = Except.ok (runB 9) ∧
    ((runB 9).rounds.get RoundKey.round3).length = 1 :=
  ⟨rfl, rfl, rfl, rfl, rfl⟩

/-- C3 counterexample: running the full 13-play script from a fresh match
(every submission accepted) leaves round3 with 5 recorded plays while its
round winner is set — refuting both "a round never accumulates more than
4 plays" and "roundWinners[r] is set iff round r holds exactly 4 plays"
over reachable states. -/
theorem c3_counterexample_round3_overflow :
    runPlaysE mB0 reqsB = Except.ok (runB 13) ∧
    ((runB 13).rounds.get RoundKey.round3).length = 5 ∧
    ((runB 13).state.roundWinners.get RoundKey.round3).isSome = true :=
  ⟨rfl, rfl, rfl⟩

/-- C3 (amended): restricted to match states reachable without ever
submitting a play to an already completed match, roundWinners[r] is set
iff round r holds exactly 4 recorded plays, no round holds more than 4
plays, and the play that brings the current round to 4 plays sets that
round's winner in the same transition. -/
theorem c3_round_closure_exactness (m : Match) (h : ReachableNC m) :
    (∀ r : RoundKey, ((m.state.roundWinners.get r).isSome = true ↔ (m.rounds.get r).length = 4)) ∧
    (∀ r : RoundKey, (m.rounds.get r).length ≤ 4) ∧
    (∀ (u : String) (v : Int) (s pid : String) (ts : Int) (m' : Match),
      m.state.gameComplete = false → submitPlay m u v s pid ts = Except.ok m' →
      (m'.rounds.get m.state.currentRound).length = 4 →
      (m'.state.roundWinners.get m.state.currentRound).isSome = true) := by
  obtain ⟨i4, i3, i5, icur⟩ := reachable_inv h
  refine ⟨i4, ?_, ?_⟩
  · intro r
    cases hcr : m.state.currentRound with
    | round1 =>
      rw [hcr] at icur i5
      cases r <;> simp_all [Rounds.get]
    | round2 =>
      rw [hcr] at icur i5
      cases r <;> simp_all [Rounds.get]
    | round3 =>
      rw [hcr] at icur i5
      cases r <;> simp_all [Rounds.get]
  · intro u v s pid ts m' hgc hsub hlen
    have hinv' := matchInv_step ⟨i4, i3, i5, icur⟩ hgc hsub
    exact (hinv'.1 m.state.currentRound).mpr hlen

/-- Witness for C3 (amended) at the freshly created concrete match. -/
theorem c3_round_closure_exactness_witness :
    ((mB0.state.roundWinners.get RoundKey.round1).isSome = true ↔
      (mB0.rounds.get RoundKey.round1).length = 4) := by
  have hreach : ReachableNC mB0 := by unfold mB0; exact ReachableNC.init _ _
  exact (c3_round_closure_exactness mB0 hreach).1 RoundKey.round1

end Trucastel
